import Mathlib

/-!
Verification development for the `card-engine` repository (German Whist
engine, hand-belief tracker, neural network and SARSA(λ) trainer).

Rust source files are shallowly embedded as Lean definitions:

* `src/cards.rs`            → `GW.Suit`, `GW.Rank`, `GW.BasicCard`, deck draws
* `src/germanwhist/state.rs`→ `GW.GameState`, `GW.GameState.scoreHand`, views
* `src/germanwhist/phase.rs`→ `GW.FirstPhase`, `GW.FirstPhase.onAction`
* `src/hand_belief.rs`      → `GW.CardState`, `GW.HandBelief` and its operations
* `src/germanwhist/player.rs`→ `GW.updateSuitOrder`
* `src/learning/neural_net.rs` → `GW.Layer`, `GW.NeuralNet`, gradient passes
* `src/learning/training.rs`→ `GW.sarsaStepUpdate`, `GW.trainDelivery`

Machine floats (`f32`) are modelled as rationals (`ℚ`); the properties
settled here are structural and do not depend on rounding.  `usize` is
modelled as `Nat`.  Rust `Vec` is `List` (with `Vec::pop` taking the last
element).  Fallible code returns `Option`/`Except`; `expect`/`unwrap`
panics are modelled by a dedicated `panic` outcome.
-/

namespace GW

/-- Suit of a playing card (`cards.rs`, enum `Suit`, discriminants 0–3). -/
inductive Suit where
  | Clubs
  | Diamonds
  | Hearts
  | Spades
deriving DecidableEq, Repr

/-- Numeric value of a suit (`Suit::ord`, the `repr(u8)` discriminant). -/
def Suit.ord : Suit → Nat
  | .Clubs => 0
  | .Diamonds => 1
  | .Hearts => 2
  | .Spades => 3

/-- Rank of a playing card (`cards.rs`, enum `Rank`, discriminants 0–12). -/
inductive Rank where
  | Two | Three | Four | Five | Six | Seven | Eight
  | Nine | Ten | Jack | Queen | King | Ace
deriving DecidableEq, Repr

/-- Numeric value of a rank with ace high (`Rank::ord_ace_high`, the
`repr(u8)` discriminant). -/
def Rank.ordAceHigh : Rank → Nat
  | .Two => 0
  | .Three => 1
  | .Four => 2
  | .Five => 3
  | .Six => 4
  | .Seven => 5
  | .Eight => 6
  | .Nine => 7
  | .Ten => 8
  | .Jack => 9
  | .Queen => 10
  | .King => 11
  | .Ace => 12

/-- A normal (non-joker) playing card (`cards.rs`, struct `BasicCard`). -/
structure BasicCard where
  rank : Rank
  suit : Suit
deriving DecidableEq, Repr

instance : Fintype Suit :=
  ⟨⟨[Suit.Clubs, Suit.Diamonds, Suit.Hearts, Suit.Spades], by decide⟩,
    by intro x; cases x <;> decide⟩

instance : Fintype Rank :=
  ⟨⟨[Rank.Two, Rank.Three, Rank.Four, Rank.Five, Rank.Six, Rank.Seven,
      Rank.Eight, Rank.Nine, Rank.Ten, Rank.Jack, Rank.Queen, Rank.King,
      Rank.Ace], by decide⟩,
    by intro x; cases x <;> decide⟩

instance : Fintype BasicCard :=
  Fintype.ofEquiv (Rank × Suit)
    { toFun := fun p => ⟨p.1, p.2⟩
      invFun := fun c => (c.rank, c.suit)
      left_inv := fun _ => rfl
      right_inv := fun _ => rfl }

/-- List of all 52 cards (`BasicCard::all`): ranks outermost, suits in
canonical order innermost. -/
def BasicCard.all : List BasicCard :=
  [Rank.Two, Rank.Three, Rank.Four, Rank.Five, Rank.Six, Rank.Seven,
   Rank.Eight, Rank.Nine, Rank.Ten, Rank.Jack, Rank.Queen, Rank.King,
   Rank.Ace].flatMap fun r =>
    [Suit.Clubs, Suit.Diamonds, Suit.Hearts, Suit.Spades].map fun s =>
      ⟨r, s⟩

/-- Trick scoring rule (`state.rs`, `GameState::score_hand`): returns
`some true` iff the leading player wins the trick, `none` when the two
cards are equal (impossible with a real deck, and `unwrap`ped by the
callers). `self.trump` is passed explicitly as `trump`. -/
def scoreHand (trump : Suit) (leading following : BasicCard) : Option Bool :=
  if leading = following then
    none
  else if leading.suit = trump then
    some (decide (following.suit ≠ trump) ||
          decide (leading.rank.ordAceHigh > following.rank.ordAceHigh))
  else
    some (if following.suit = trump then
            false
          else if following.suit ≠ leading.suit then
            true
          else
            decide (leading.rank.ordAceHigh > following.rank.ordAceHigh))

/-- Error taxonomy of the engine (`engine.rs`, enum `ActionError`). -/
inductive ActionError where
  | WrongPlayer (expected : Nat)
  | MissingCard
  | NotFollowingSuit
  | GameOver
deriving DecidableEq, Repr

/-- A submitted move (`engine.rs`, struct `Action`). -/
structure Action where
  player : Nat
  card : BasicCard
deriving DecidableEq, Repr

/-- Deck draw (`cards.rs`, `BasicDeck::draw` = `Vec::pop`): remove and
return the last card.  Returns the drawn card and the remaining deck. -/
def deckDraw (cards : List BasicCard) : Option BasicCard × List BasicCard :=
  (cards.getLast?, cards.dropLast)

/-- Draw of the top `n` cards (`cards.rs`, `BasicDeck::draw_n` =
`Vec::split_off(m - n)`), returning `none` and leaving the deck alone when
fewer than `n` cards remain. -/
def deckDrawN (cards : List BasicCard) (n : Nat) :
    Option (List BasicCard) × List BasicCard :=
  if n ≤ cards.length then
    (some (cards.drop (cards.length - n)), cards.take (cards.length - n))
  else
    (none, cards)

/-- Authoritative game state (`state.rs`, struct `GameState`).  The two
entries of the Rust array `hands: [Vec<BasicCard>; 2]` are the fields
`hands0`/`hands1`, accessed through `GameState.hand`/`GameState.setHand`. -/
structure GameState where
  deck : List BasicCard
  hands0 : List BasicCard
  hands1 : List BasicCard
  score0 : Nat
  score1 : Nat
  trump : Suit
  played : Option BasicCard
  active : Nat
  roundsLeft : Nat
  revealed : Option BasicCard
deriving DecidableEq, Repr

/-- Read `self.hands[player]`.  The source indexes a two-element array
(only ever with index 0 or 1); every index other than 0 selects the
second hand here. -/
def GameState.hand (gs : GameState) (player : Nat) : List BasicCard :=
  if player = 0 then gs.hands0 else gs.hands1

/-- Write `self.hands[player]` (same indexing convention as
`GameState.hand`). -/
def GameState.setHand (gs : GameState) (player : Nat) (h : List BasicCard) :
    GameState :=
  if player = 0 then { gs with hands0 := h } else { gs with hands1 := h }

/-- Fresh round (`state.rs`, `GameState::new`).  Deck shuffling is the
injected randomness source, so the shuffled 52-card deck is a parameter;
the `unwrap`s on the three draws yield `none` when the deck is too
small. -/
def GameState.new (shuffled : List BasicCard) (player : Option Nat) :
    Option GameState :=
  match deckDrawN shuffled 13 with
  | (none, _) => none
  | (some h0, d1) =>
    match deckDrawN d1 13 with
    | (none, _) => none
    | (some h1, d2) =>
      match deckDraw d2 with
      | (none, _) => none
      | (some c, d3) =>
        some { deck := d3, hands0 := h0, hands1 := h1,
               score0 := 0, score1 := 0, trump := c.suit,
               played := none, active := player.getD 0,
               roundsLeft := 26, revealed := some c }

/-- Has the player a card of suit `s` (`state.rs`,
`PlayerViewMut::has_suit`)? -/
def hasSuit (hand : List BasicCard) (s : Suit) : Bool :=
  hand.any fun card => card.suit == s

/-- Append a card to a hand (`state.rs`, `PlayerViewMut::add_card` =
`Vec::push`). -/
def addCard (hand : List BasicCard) (c : BasicCard) : List BasicCard :=
  hand ++ [c]

/-- Remove the first occurrence of `c` from the hand, erroring when the
player does not own the card (`state.rs`, `PlayerViewMut::remove_card`:
position of the first match, then `Vec::remove`). -/
def removeCard : List BasicCard → BasicCard → Except ActionError (List BasicCard)
  | [], _ => .error .MissingCard
  | x :: rest, c =>
    if x = c then
      .ok rest
    else
      match removeCard rest c with
      | .ok rest' => .ok (x :: rest')
      | .error e => .error e

/-- Phase state for the first thirteen tricks (`phase.rs`, struct
`FirstPhase`). -/
structure FirstPhase where
  played : Option BasicCard
  active : Nat
  roundsLeft : Nat
  revealed : Option BasicCard
deriving DecidableEq, Repr

/-- Constructor `FirstPhase::new` (`phase.rs`). -/
def FirstPhase.new (firstCard : BasicCard) (player : Nat) : FirstPhase :=
  { played := none, active := player, roundsLeft := 13,
    revealed := some firstCard }

/-- Identifies which `expect`/`unwrap` in `FirstPhase::on_action`
(`phase.rs`) fired. -/
inductive PanicKind where
  | scoreHandUnwrap
  | revealedExpect
  | drawExpect
deriving DecidableEq, Repr

/-- Outcome of `FirstPhase::on_action`: a panic, an `Err` (with the
post-call phase and game state, since `&mut self` mutations before the
early return persist), or `Ok(rounds_left)` with the post-call state. -/
inductive ActionOutcome where
  | crash (k : PanicKind)
  | fail (e : ActionError) (phase : FirstPhase) (gs : GameState)
  | ok (roundsLeft : Nat) (phase : FirstPhase) (gs : GameState)
deriving DecidableEq, Repr

/-- Error component of an outcome, if any. -/
def ActionOutcome.errOf : ActionOutcome → Option ActionError
  | .fail e _ _ => some e
  | _ => none

/-- Trick resolution: the tail of the `else` branch of
`FirstPhase::on_action` (`phase.rs` lines 101–127), entered after the
follow-suit check passed, with `self.played` already taken. -/
def FirstPhase.resolveTrick (self : FirstPhase) (gs : GameState)
    (action : Action) (leadingCard : BasicCard) : ActionOutcome :=
  match removeCard (gs.hand action.player) action.card with
  | .error e => .fail e self gs
  | .ok newHand =>
    let gs := gs.setHand action.player newHand
    let follow := self.active
    let lead := 1 - self.active
    match scoreHand gs.trump leadingCard action.card with
    | none => .crash .scoreHandUnwrap
    | some leaderWins =>
      let winner := if leaderWins then lead else follow
      let loser := 1 - winner
      match self.revealed with
      | none => .crash .revealedExpect
      | some r =>
        let self := { self with revealed := none }
        let gs := gs.setHand winner (addCard (gs.hand winner) r)
        match deckDraw gs.deck with
        | (none, _) => .crash .drawExpect
        | (some draw, deck') =>
          let gs := { gs with deck := deck' }
          let gs := gs.setHand loser (addCard (gs.hand loser) draw)
          let (self, gs) :=
            if gs.deck.length > 0 then
              let (r2, deck2) := deckDraw gs.deck
              ({ self with revealed := r2 }, { gs with deck := deck2 })
            else
              (self, gs)
          let self := { self with
                        active := winner
                        roundsLeft := self.roundsLeft - 1 }
          .ok self.roundsLeft self gs

/-- Transition function `FirstPhase::on_action` (`phase.rs` lines
72–131).  Note that in the follow branch the source runs
`self.played.take()` before the follow-suit check, so on a
`NotFollowingSuit` error the led card has already been cleared. -/
def FirstPhase.onAction (self : FirstPhase) (gs : GameState)
    (action : Action) : ActionOutcome :=
  if action.player ≠ self.active then
    .fail (.WrongPlayer self.active) self gs
  else if action.card ∉ gs.hand action.player then
    .fail .MissingCard self gs
  else
    match self.played with
    | none =>
      match removeCard (gs.hand action.player) action.card with
      | .error e => .fail e self gs
      | .ok newHand =>
        let gs := gs.setHand action.player newHand
        let self := { self with
                      played := some action.card
                      active := 1 - self.active }
        .ok self.roundsLeft self gs
    | some leadingCard =>
      let self := { self with played := none }
      if hasSuit (gs.hand action.player) leadingCard.suit &&
          action.card.suit != leadingCard.suit then
        .fail .NotFollowingSuit self gs
      else
        self.resolveTrick gs action leadingCard

/-- Run state of the first phase: either still inside it, or transitioned
to the second phase (carrying the final phase and game state). -/
inductive FirstRun where
  | inPhase (fp : FirstPhase) (gs : GameState)
  | exited (fp : FirstPhase) (gs : GameState)
deriving DecidableEq, Repr

/-- Driver for one submitted action during the first phase, following
`Round::play_action` (`engine.rs` lines 387–395): call `on_action` and
transition out of the phase when it returns 0 rounds left.  `none`
models a panic. -/
def stepFirst : FirstRun → Action → Except PanicKind FirstRun
  | .exited fp gs, _ => .ok (.exited fp gs)
  | .inPhase fp gs, a =>
    match fp.onAction gs a with
    | .crash k => .error k
    | .fail _ fp' gs' => .ok (.inPhase fp' gs')
    | .ok rl fp' gs' =>
      .ok (if rl = 0 then .exited fp' gs' else .inPhase fp' gs')

/-- Run a sequence of submitted actions through the first phase. -/
def runFirst (st : FirstRun) : List Action → Except PanicKind FirstRun
  | [] => .ok st
  | a :: rest =>
    match stepFirst st a with
    | .error k => .error k
    | .ok st' => runFirst st' rest

/-- Start of a round (`Round::new` in `engine.rs`: `GameState::new`
produces the state and the first revealed card, which seeds
`FirstPhase::new` together with starting player 0). -/
def initRound (shuffled : List BasicCard) : Option FirstRun :=
  match GameState.new shuffled none with
  | none => none
  | some gs =>
    match gs.revealed with
    | none => none
    | some c => some (.inPhase (FirstPhase.new c gs.active) gs)

/-- Resource invariant of the first phase: a card is revealed, at least
one trick remains, and the deck holds at least `2·rounds_left − 1`
cards. -/
def FirstInv (fp : FirstPhase) (gs : GameState) : Prop :=
  fp.revealed.isSome = true ∧ 1 ≤ fp.roundsLeft ∧
    2 * fp.roundsLeft - 1 ≤ gs.deck.length

/-- Invariant lifted to run states (trivially true once the phase has
been exited). -/
def FirstRunInv : FirstRun → Prop
  | .inPhase fp gs => FirstInv fp gs
  | .exited _ _ => True

/-- Combined start + run of a round: `none` when the 52-card deal itself
fails, otherwise the result of running the submitted actions. -/
def playRound (shuffled : List BasicCard) (acts : List Action) :
    Option (Except PanicKind FirstRun) :=
  (initRound shuffled).map fun st => runFirst st acts

/-- Number of cards of suit `s` in the hand (`player.rs`,
`self.hand.iter().filter(|c| c.suit == *s).count()`). -/
def countSuit (hand : List BasicCard) (s : Suit) : Nat :=
  (hand.filter fun c => c.suit == s).length

/-- Sort key of `PlayerState::update_suit_order` (`player.rs` lines
219–225): `(0 if trump else 1, count-of-suit-in-hand, suit ordinal)`,
compared lexicographically and ASCENDING, as `sort_by_key` does. -/
def suitSortKey (trump : Suit) (hand : List BasicCard) (s : Suit) :
    Nat × Nat × Nat :=
  ((if s = trump then 0 else 1), countSuit hand s, s.ord)

/-- Lexicographic comparison of two sort keys (Rust tuple `Ord`). -/
def keyLe (k1 k2 : Nat × Nat × Nat) : Bool :=
  decide (k1.1 < k2.1) ||
    (decide (k1.1 = k2.1) &&
      (decide (k1.2.1 < k2.2.1) ||
        (decide (k1.2.1 = k2.2.1) && decide (k1.2.2 ≤ k2.2.2))))

/-- Insert into a sorted list (helper for the sort below). -/
def insertLe (le : Suit → Suit → Bool) (x : Suit) : List Suit → List Suit
  | [] => [x]
  | y :: rest => if le y x then y :: insertLe le x rest else x :: y :: rest

/-- Ascending insertion sort.  `Vec::sort_by_key` is a stable ascending
sort; because the suit ordinal is part of every key, keys are injective
on the four suits, so every correct ascending sort (this one included)
produces the same list as the source's. -/
def sortSuitsLe (le : Suit → Suit → Bool) : List Suit → List Suit
  | [] => []
  | x :: rest => insertLe le x (sortSuitsLe le rest)

/-- Suit-order recomputation (`player.rs`, `PlayerState::update_suit_order`):
sort the current suit order ascending by `suitSortKey`. -/
def updateSuitOrder (trump : Suit) (hand : List BasicCard)
    (suitOrder : List Suit) : List Suit :=
  sortSuitsLe (fun s1 s2 => keyLe (suitSortKey trump hand s1)
    (suitSortKey trump hand s2)) suitOrder

/-- Claimed suit ordering, following the spec's words: key
`(0 if trump else 1, MINUS count-of-suit-in-hand, suit ordinal)`, i.e.
descending held-count within the non-trump (and trump) groups. -/
def claimSuitKey (trump : Suit) (hand : List BasicCard) (s : Suit) :
    Nat × Int × Nat :=
  ((if s = trump then 0 else 1), -(countSuit hand s : Int), s.ord)

/-- Lexicographic comparison for the spec's key. -/
def claimKeyLe (k1 k2 : Nat × Int × Nat) : Bool :=
  decide (k1.1 < k2.1) ||
    (decide (k1.1 = k2.1) &&
      (decide (k1.2.1 < k2.2.1) ||
        (decide (k1.2.1 = k2.2.1) && decide (k1.2.2 ≤ k2.2.2))))

/-- Suit ordering as the spec and claim C6 describe it (trump first,
then descending held-count, then canonical ordinal). -/
def claimSuitOrder (trump : Suit) (hand : List BasicCard)
    (suitOrder : List Suit) : List Suit :=
  sortSuitsLe (fun s1 s2 => claimKeyLe (claimSuitKey trump hand s1)
    (claimSuitKey trump hand s2)) suitOrder

/-- Belief status of a single card (`hand_belief.rs`, enum `CardState`);
the `f32` probability is modelled as `ℚ`. -/
inductive CardState where
  | Played
  | Void
  | Prob (p : ℚ)
  | Owns
deriving DecidableEq, Repr

/-- Probability that the player owns a card in this state
(`CardState::p`). -/
def CardState.p : CardState → ℚ
  | .Played => 0
  | .Void => 0
  | .Owns => 1
  | .Prob p => p

/-- Turn `Void` into `Prob(0)` and keep anything else
(`CardState::void_to_zero`). -/
def CardState.voidToZero : CardState → CardState
  | .Void => .Prob 0
  | s => s

/-- Is the state the `Prob` variant (`CardState::is_prob`)? -/
def CardState.isProb : CardState → Bool
  | .Prob _ => true
  | _ => false

/-- Opponent-hand belief (`hand_belief.rs`, struct `HandBelief`): the
`HashMap` over all 52 cards is modelled as a total function. -/
structure HandBelief where
  probs : BasicCard → CardState

/-- Constructor `HandBelief::new`: every card `Void`. -/
def HandBelief.new : HandBelief := ⟨fun _ => CardState.Void⟩

/-- Reset the entire hand to void (`HandBelief::clear`). -/
def HandBelief.clear (_hb : HandBelief) : HandBelief :=
  ⟨fun _ => CardState.Void⟩

/-- Probability that the player has the card (`HandBelief::has_card`;
the spec writes it `p(c)`). -/
def HandBelief.p (hb : HandBelief) (card : BasicCard) : ℚ :=
  (hb.probs card).p

/-- Total number of cards held (`HandBelief::num_cards`). -/
def HandBelief.numCards (hb : HandBelief) : ℚ :=
  (BasicCard.all.map fun c => (hb.probs c).p).sum

/-- Number of cards in a probability state
(`HandBelief::num_candidates`, an `f32` count). -/
def HandBelief.numCandidates (hb : HandBelief) : ℚ :=
  ((BasicCard.all.filter fun c => (hb.probs c).isProb).length : ℚ)

/-- Add `ec / num_candidates` to every `Prob` card
(`HandBelief::distribute_uniformly`). -/
def HandBelief.distributeUniformly (hb : HandBelief) (ec : ℚ) : HandBelief :=
  let nc := hb.numCandidates
  ⟨fun c =>
    match hb.probs c with
    | .Prob p => .Prob (p + ec / nc)
    | s => s⟩

/-- Summed probability of the `Prob` cards FAILING `pred` (the
`(p_dist, count).0` fold of `HandBelief::transfer_probability_to`). -/
def probFailMass (hb : HandBelief) (pred : BasicCard → Bool) : ℚ :=
  ((BasicCard.all.filter fun k => !(pred k) && (hb.probs k).isProb).map
    fun k => (hb.probs k).p).sum

/-- Number of `Prob` cards failing `pred` (the `.1` of the same fold). -/
def probFailCount (hb : HandBelief) (pred : BasicCard → Bool) : ℚ :=
  ((BasicCard.all.filter fun k => !(pred k) && (hb.probs k).isProb).length : ℚ)

/-- Number of `Prob` cards satisfying `pred` (spec-side quantity used to
state claim C8; equals `num_candidates - count`). -/
def probSatCount (hb : HandBelief) (pred : BasicCard → Bool) : ℚ :=
  ((BasicCard.all.filter fun k => pred k && (hb.probs k).isProb).length : ℚ)

/-- Transfer the probability mass of `Prob` cards failing `pred` onto
the `Prob` cards satisfying it
(`HandBelief::transfer_probability_to`): each satisfying `Prob` card
gains `p_dist / (nc - count)`, each failing `Prob` card is set to
`Prob(0)`. -/
def HandBelief.transferProbabilityTo (hb : HandBelief)
    (pred : BasicCard → Bool) : HandBelief :=
  let pDist := probFailMass hb pred
  let count := probFailCount hb pred
  let nc := hb.numCandidates
  let pInc := pDist / (nc - count)
  ⟨fun card =>
    match hb.probs card with
    | .Prob pp => if pred card then .Prob (pp + pInc) else .Prob 0
    | s => s⟩

/-- Mark all cards as non-void (`HandBelief::remove_voids`). -/
def HandBelief.removeVoids (hb : HandBelief) : HandBelief :=
  ⟨fun c => (hb.probs c).voidToZero⟩

/-- Draw `n` random cards after un-voiding
(`HandBelief::random_cards_drawn`). -/
def HandBelief.randomCardsDrawn (hb : HandBelief) (n : Nat) : HandBelief :=
  hb.removeVoids.distributeUniformly (n : ℚ)

/-- Establish that the suit is empty (`HandBelief::empty_suit`):
transfer probability away from the suit, then void its `Prob` cards. -/
def HandBelief.emptySuit (hb : HandBelief) (suit : Suit) : HandBelief :=
  let hb := hb.transferProbabilityTo fun c => c.suit != suit
  ⟨fun k =>
    if k.suit = suit then
      match hb.probs k with
      | .Prob _ => .Void
      | s => s
    else hb.probs k⟩

/-- A particular card was picked up (`HandBelief::card_drawn`). -/
def HandBelief.cardDrawn (hb : HandBelief) (card : BasicCard) : HandBelief :=
  let hb := hb.transferProbabilityTo fun c => c != card
  ⟨fun k => if k = card then .Owns else hb.probs k⟩

/-- The card was played by this player (`HandBelief::card_played`). -/
def HandBelief.cardPlayed (hb : HandBelief) (card : BasicCard) : HandBelief :=
  let hb := hb.transferProbabilityTo fun c => c != card
  let hb : HandBelief := ⟨fun k => if k = card then .Played else hb.probs k⟩
  hb.distributeUniformly (-1)

/-- The card was played by another player (`HandBelief::card_seen`). -/
def HandBelief.cardSeen (hb : HandBelief) (card : BasicCard) : HandBelief :=
  let hb := hb.transferProbabilityTo fun c => c != card
  ⟨fun k => if k = card then .Played else hb.probs k⟩

/-- Tagged activation of a layer (`neural_net.rs`,
`ActivationFunction`). -/
inductive ActivationFunction where
  | Linear
  | Sigmoid
  | SymmetricSigmoid
  | ReLU
  | Exp
deriving DecidableEq, Repr

/-- Dot product of two equal-length vectors (`ndarray` `dot`). -/
def dotL (a b : List ℚ) : ℚ := (List.zipWith (· * ·) a b).sum

/-- A perceptron layer (`neural_net.rs`, struct `Layer`): weight matrix
as a list of rows, bias vector, activation tag.  The transcendental
`f32` activations are interpreted by caller-supplied functions
`af`/`agf` (value and gradient), mirroring `ActivationFunction::af` and
`::agf`. -/
structure Layer where
  m : List (List ℚ)
  bias : List ℚ
  act : ActivationFunction

/-- Element count of the weight matrix (`self.m.len()` of the
row-major `Array2`). -/
def Layer.mLen (l : Layer) : Nat := (l.m.map List.length).sum

/-- Input dimension (`Layer::num_inputs` = `m.dim().1`). -/
def Layer.numInputs (l : Layer) : Nat := (l.m.headD []).length

/-- Parameter count of a layer (`Layer::num_parameters` =
`outputs · (inputs + 1)`, i.e. the matrix's elements plus the bias). -/
def Layer.numParameters (l : Layer) : Nat := l.mLen + l.bias.length

/-- Forward pass of one layer that also fills its parameter-gradient
block (`Layer::evaluate_onto_partial_g`): every slot of the block is
overwritten — the bias part with `agf(pa, f(pa))`, the matrix part with
the outer product of those values with the input.  Returns
`(output, block)` with `block = dm (row-major) ++ dbias`. -/
def Layer.evalPartialG (af : ActivationFunction → ℚ → ℚ)
    (agf : ActivationFunction → ℚ → ℚ → ℚ) (l : Layer) (input : List ℚ) :
    List ℚ × List ℚ :=
  let pas := List.zipWith (fun row b => dotL row input + b) l.m l.bias
  let out := pas.map (af l.act)
  let db := List.zipWith (fun pa a => agf l.act pa a) pas out
  let dm := (db.map fun g => input.map fun x => g * x).flatten
  (out, dm ++ db)

/-- Split a flat list into `rows` chunks of `n` entries
(`ArrayViewMut::into_shape` on the matrix part of a block). -/
def chunksOf : Nat → Nat → List ℚ → List (List ℚ)
  | 0, _, _ => []
  | rows + 1, n, l =>
    let (h, t) := l.splitAt n
    h :: chunksOf rows n t

/-- Backward completion of one layer's block (`Layer::complete_g`):
multiply each matrix row and each bias entry element-wise by the
incoming output-derivative, and return the input-derivative
`mᵀ · de_dout`.  Returns `(updated block, de_din)`. -/
def Layer.completeG (l : Layer) (deDout : List ℚ) (g : List ℚ) :
    List ℚ × List ℚ :=
  let (dml, dbias) := g.splitAt l.mLen
  let dmRows := chunksOf l.m.length l.numInputs dml
  let dmRows' := List.zipWith (fun row di => row.map fun x => x * di)
    dmRows deDout
  let dbias' := List.zipWith (· * ·) dbias deDout
  let deDin := (List.range l.numInputs).map fun j =>
    dotL (l.m.map fun row => row.getD j 0) deDout
  (dmRows'.flatten ++ dbias', deDin)

/-- Feedforward network (`neural_net.rs`, struct `NeuralNet`); the
learning-rate bookkeeping fields are irrelevant to evaluation and
omitted. -/
structure NeuralNet where
  layers : List Layer

/-- Total parameter count (`NeuralNet::num_parameters`). -/
def NeuralNet.numParameters (nn : NeuralNet) : Nat :=
  (nn.layers.map Layer.numParameters).sum

/-- Output dimension (`NeuralNet::num_outputs`, the row count of the
last layer; the source indexes `layers[len - 1]` and would panic on an
empty network, modelled as 0). -/
def NeuralNet.numOutputs (nn : NeuralNet) : Nat :=
  ((nn.layers.getLast?).map fun l => l.m.length).getD 0

/-- Forward fold of `evaluate_with_gradient`: peel each layer's block
off the front of the buffer and replace it with the freshly computed
block; buffer space beyond the layers keeps its (zero-filled)
content. -/
def forwardPassG (af : ActivationFunction → ℚ → ℚ)
    (agf : ActivationFunction → ℚ → ℚ → ℚ) :
    List Layer → List ℚ → List ℚ → List ℚ × List ℚ
  | [], x, gv => (x, gv)
  | l :: ls, x, gv =>
    let (_g, ogv) := gv.splitAt l.numParameters
    let (y, gblock) := l.evalPartialG af agf x
    let (out, rest) := forwardPassG af agf ls y ogv
    (out, gblock ++ rest)

/-- Backward fold of `evaluate_with_gradient` (layers visited in
reverse): split each layer's block off the END of the buffer and
complete it. -/
def backwardPassG : List Layer → List ℚ → List ℚ → List ℚ × List ℚ
  | [], d, gv => (d, gv)
  | l :: ls, d, gv =>
    let loc := gv.length - l.numParameters
    let (ogv, g) := gv.splitAt loc
    let (g', d') := l.completeG d g
    let (dfin, rest) := backwardPassG ls d' ogv
    (dfin, rest ++ g')

/-- Forward-plus-gradient evaluation (`neural_net.rs`,
`NeuralNet::evaluate_with_gradient`): the caller-provided buffer is
first zero-filled (`gradient.fill(0.0)`), then the forward fold writes
every layer's block and the backward fold (initial upstream derivative
1) completes them.  Returns `(output, final buffer)`. -/
def NeuralNet.evaluateWithGradient (nn : NeuralNet)
    (af : ActivationFunction → ℚ → ℚ)
    (agf : ActivationFunction → ℚ → ℚ → ℚ)
    (input : List ℚ) (gradient : List ℚ) : List ℚ × List ℚ :=
  let gradient := List.replicate gradient.length (0 : ℚ)
  let (output, gradient) := forwardPassG af agf nn.layers input gradient
  let deDout := List.replicate nn.numOutputs (1 : ℚ)
  let (_, gradient) := backwardPassG nn.layers.reverse deDout gradient
  (output, gradient)

/-- Per-player trainer state (`training.rs`, struct `SarsaPlayer`,
restricted to the trace and `last_q`; the observer state does not enter
claim C4). -/
structure SarsaPlayerT where
  eTrace : List ℚ
  lastQ : ℚ
deriving DecidableEq, Repr

/-- The per-step update block of `SarsaLambda::train_on_episode`
(`training.rs` lines 151–166): when `dual_train || active == 0`, update
the model weights from the active player's trace, then decay the trace
by `λ·γ`, accumulate the gradient and store the new Q-value; otherwise
the whole block is skipped.  The model type and its `update_weights`
are abstract parameters (the `LearningModel` trait). -/
def sarsaStepUpdate {M : Type} (updateWeights : M → ℚ → List ℚ → M)
    (lambda gamma : ℚ) (dualTrain : Bool) (active : Nat) (model : M)
    (qPredict : ℚ) (grad : List ℚ)
    (players : SarsaPlayerT × SarsaPlayerT) :
    M × (SarsaPlayerT × SarsaPlayerT) :=
  if dualTrain || active == 0 then
    let player := if active = 0 then players.1 else players.2
    let model := updateWeights model (gamma * qPredict - player.lastQ)
      player.eTrace
    let player' : SarsaPlayerT :=
      { eTrace := List.zipWith (fun e g => lambda * gamma * e + g)
          player.eTrace grad
        lastQ := qPredict }
    (model, if active = 0 then (player', players.2) else (players.1, player'))
  else
    (model, players)

/-- Modelled from the spec: the engine interface consumed by
`SarsaLambda::train_on_episode` — the live `Round` with
`start_round`/`play_action` returning per-player `GameEvent` lists is
missing from `src/` (the `engine.rs` present is a superseded revision
without events).  `start_round` yields the two per-player event lists
and the initial engine state; `playStep` performs the action chosen by
the ε-greedy policy and yields the two per-player event lists of
`play_action` plus the next engine state (the choice of action is
folded into the transition, as it does not affect which lists are
produced). -/
structure TrainEngine (σ E : Type) where
  startRound : (List E × List E) × σ
  isGameOver : σ → Bool
  playStep : σ → (List E × List E) × σ

/-- Event-delivery skeleton of the episode loop of
`SarsaLambda::train_on_episode` (`training.rs` lines 135–175): each
observer is abstracted to the ordered log of events passed to its
`on_event`.  Faithful to the source, the loop binds the event lists
returned by `play_action` to `_` and re-delivers `ev` — the lists
returned by `start_round` — to both observers after every action
(lines 168–174).  Fuel bounds the loop; the flag reports whether
game-over was reached. -/
def trainDeliveryLoop {σ E : Type} (eng : TrainEngine σ E)
    (startEv : List E × List E) :
    Nat → σ → List E × List E → (List E × List E) × Bool
  | 0, _, logs => (logs, false)
  | fuel + 1, s, logs =>
    if eng.isGameOver s then (logs, true)
    else
      let (_evNew, s') := eng.playStep s
      trainDeliveryLoop eng startEv fuel s'
        (logs.1 ++ startEv.1, logs.2 ++ startEv.2)

/-- Episode-level event delivery (`train_on_episode` lines 122–175):
deliver the `start_round` lists once, then loop. -/
def trainDelivery {σ E : Type} (eng : TrainEngine σ E) (fuel : Nat) :
    (List E × List E) × Bool :=
  let (ev, s0) := eng.startRound
  trainDeliveryLoop eng ev fuel s0 (ev.1, ev.2)

/-! Helper lemmas. -/

lemma removeCard_ok_of_mem (hand : List BasicCard) (c : BasicCard)
    (h : c ∈ hand) : ∃ h', removeCard hand c = .ok h' := by
  induction hand with
  | nil => cases h
  | cons x rest ih =>
    by_cases hx : x = c
    · exact ⟨rest, by simp [removeCard, hx]⟩
    · have hc : c ∈ rest := by
        rcases List.mem_cons.1 h with h1 | h1
        · exact absurd h1.symm hx
        · exact h1
      rcases ih hc with ⟨h', hh⟩
      exact ⟨x :: h', by simp [removeCard, hx, hh]⟩

lemma removeCard_error_eq (hand : List BasicCard) (c : BasicCard)
    (e : ActionError) (h : removeCard hand c = .error e) :
    e = ActionError.MissingCard := by
  induction hand with
  | nil =>
    simp only [removeCard] at h
    exact (Except.error.inj h).symm
  | cons x rest ih =>
    by_cases hx : x = c
    · simp [removeCard, hx] at h
    · simp only [removeCard, if_neg hx] at h
      cases hrc : removeCard rest c with
      | ok h' => rw [hrc] at h; cases h
      | error e' => rw [hrc] at h; cases h; exact ih hrc

@[simp] lemma GameState.deck_setHand (gs : GameState) (p : Nat)
    (h : List BasicCard) : (gs.setHand p h).deck = gs.deck := by
  unfold GameState.setHand; split <;> rfl

@[simp] lemma GameState.trump_setHand (gs : GameState) (p : Nat)
    (h : List BasicCard) : (gs.setHand p h).trump = gs.trump := by
  unfold GameState.setHand; split <;> rfl

@[simp] lemma GameState.revealed_setHand (gs : GameState) (p : Nat)
    (h : List BasicCard) : (gs.setHand p h).revealed = gs.revealed := by
  unfold GameState.setHand; split <;> rfl

lemma resolveTrick_errOf_ne_nfs (self : FirstPhase) (gs : GameState)
    (a : Action) (lc : BasicCard) :
    (self.resolveTrick gs a lc).errOf ≠ some ActionError.NotFollowingSuit := by
  unfold FirstPhase.resolveTrick
  cases hrc : removeCard (gs.hand a.player) a.card with
  | error e =>
    have he := removeCard_error_eq _ _ _ hrc
    subst he
    simp [ActionOutcome.errOf]
  | ok newHand =>
    simp only
    cases scoreHand ((gs.setHand a.player newHand).trump) lc a.card with
    | none => simp [ActionOutcome.errOf]
    | some leaderWins =>
      simp only
      cases self.revealed with
      | none => simp [ActionOutcome.errOf]
      | some r =>
        simp only
        cases hdd : deckDraw ((gs.setHand a.player newHand).setHand
            (if leaderWins then 1 - self.active else self.active)
            (addCard (((gs.setHand a.player newHand)).hand
              (if leaderWins then 1 - self.active else self.active)) r)).deck with
        | mk fst snd =>
          cases fst with
          | none => simp [hdd, ActionOutcome.errOf]
          | some d =>
            simp only [hdd]
            split <;> simp [ActionOutcome.errOf]

lemma deckDraw_none_iff (l : List BasicCard) :
    (deckDraw l).1 = none ↔ l = [] := by
  simp [deckDraw]

lemma resolveTrick_sound (fp : FirstPhase) (gs : GameState) (a : Action)
    (lc : BasicCard)
    (hrev : fp.revealed.isSome = true) (hrl : 1 ≤ fp.roundsLeft)
    (hdk : 2 * fp.roundsLeft - 1 ≤ gs.deck.length) :
    fp.resolveTrick gs a lc ≠ .crash .revealedExpect ∧
    fp.resolveTrick gs a lc ≠ .crash .drawExpect ∧
    (∀ e fp' gs', fp.resolveTrick gs a lc = .fail e fp' gs' →
      FirstInv fp' gs') ∧
    (∀ rl fp' gs', fp.resolveTrick gs a lc = .ok rl fp' gs' →
      rl ≠ 0 → FirstInv fp' gs') := by
  unfold FirstPhase.resolveTrick
  cases hrc : removeCard (gs.hand a.player) a.card with
  | error e =>
    refine ⟨by simp, by simp, ?_, by simp⟩
    intro e' fp' gs' heq
    cases heq
    exact ⟨hrev, hrl, hdk⟩
  | ok newHand =>
    dsimp only
    cases scoreHand ((gs.setHand a.player newHand).trump) lc a.card with
    | none => exact ⟨by simp, by simp, by simp, by simp⟩
    | some leaderWins =>
      dsimp only
      cases hfr : fp.revealed with
      | none => rw [hfr] at hrev; cases hrev
      | some r =>
        dsimp only
        generalize (if leaderWins = true then 1 - fp.active else fp.active) = w
        generalize hgs2 : (gs.setHand a.player newHand).setHand w
            (addCard ((gs.setHand a.player newHand).hand w) r) = gs2
        have hdeck2 : gs2.deck = gs.deck := by
          rw [← hgs2]; simp
        cases hdd : deckDraw gs2.deck with
        | mk fst snd =>
        cases fst with
        | none =>
          exfalso
          have hnil := (deckDraw_none_iff _).1 (by rw [hdd])
          rw [hdeck2] at hnil
          rw [hnil] at hdk
          simp at hdk
          omega
        | some d =>
          dsimp only
          have hsnd : gs2.deck.dropLast = snd := by
            have := congrArg Prod.snd hdd
            simpa [deckDraw] using this
          have hlen : snd.length = gs.deck.length - 1 := by
            rw [← hsnd, hdeck2]
            simp
          refine ⟨?_, ?_, ?_, ?_⟩
          · split <;> simp
          · split <;> simp
          · split <;> simp
          · intro rl fp' gs' heq hne
            simp only [GameState.deck_setHand] at heq
            split at heq
            case isTrue hpos =>
              cases heq
              dsimp only at hne hpos
              refine ⟨?_, by dsimp only; omega, ?_⟩
              · -- the refilled revealed card comes from the non-empty deck
                simp only [GameState.deck_setHand, deckDraw,
                  List.getLast?_isSome]
                exact List.length_pos.mp hpos
              · -- the deck lost exactly two cards across the trick
                simp only [GameState.deck_setHand, deckDraw,
                  List.length_dropLast]
                omega
            case isFalse hpos =>
              cases heq
              dsimp only at hne hpos
              exfalso
              omega

lemma onAction_sound (fp : FirstPhase) (gs : GameState) (a : Action)
    (hInv : FirstInv fp gs) :
    fp.onAction gs a ≠ .crash .revealedExpect ∧
    fp.onAction gs a ≠ .crash .drawExpect ∧
    (∀ e fp' gs', fp.onAction gs a = .fail e fp' gs' → FirstInv fp' gs') ∧
    (∀ rl fp' gs', fp.onAction gs a = .ok rl fp' gs' →
      rl ≠ 0 → FirstInv fp' gs') := by
  obtain ⟨hrev, hrl, hdk⟩ := hInv
  unfold FirstPhase.onAction
  by_cases hwp : a.player ≠ fp.active
  · rw [if_pos hwp]
    refine ⟨by simp, by simp, ?_, by simp⟩
    intro e fp' gs' heq
    cases heq
    exact ⟨hrev, hrl, hdk⟩
  · rw [if_neg hwp]
    by_cases hmc : a.card ∉ gs.hand a.player
    · rw [if_pos hmc]
      refine ⟨by simp, by simp, ?_, by simp⟩
      intro e fp' gs' heq
      cases heq
      exact ⟨hrev, hrl, hdk⟩
    · rw [if_neg hmc]
      cases hpl : fp.played with
      | none =>
        dsimp only
        cases hrc : removeCard (gs.hand a.player) a.card with
        | error e =>
          refine ⟨by simp, by simp, ?_, by simp⟩
          intro e' fp' gs' heq
          cases heq
          exact ⟨hrev, hrl, hdk⟩
        | ok newHand =>
          refine ⟨by simp, by simp, by simp, ?_⟩
          intro rl fp' gs' heq _
          cases heq
          exact ⟨hrev, hrl, by rw [GameState.deck_setHand]; exact hdk⟩
      | some lc =>
        dsimp only
        split
        · refine ⟨by simp, by simp, ?_, by simp⟩
          intro e fp' gs' heq
          cases heq
          exact ⟨hrev, hrl, hdk⟩
        · exact resolveTrick_sound _ gs a lc hrev hrl hdk

lemma stepFirst_sound (st : FirstRun) (a : Action) (h : FirstRunInv st) :
    stepFirst st a ≠ .error PanicKind.revealedExpect ∧
    stepFirst st a ≠ .error PanicKind.drawExpect ∧
    ∀ st', stepFirst st a = .ok st' → FirstRunInv st' := by
  cases st with
  | exited fp gs =>
    refine ⟨by simp [stepFirst], by simp [stepFirst], ?_⟩
    intro st' heq
    cases heq
    trivial
  | inPhase fp gs =>
    obtain ⟨h1, h2, h3, h4⟩ := onAction_sound fp gs a h
    simp only [stepFirst]
    cases hoa : fp.onAction gs a with
    | crash k =>
      refine ⟨?_, ?_, by simp⟩
      · intro hk
        cases hk
        exact h1 hoa
      · intro hk
        cases hk
        exact h2 hoa
    | fail e fp' gs' =>
      refine ⟨by simp, by simp, ?_⟩
      intro st' heq
      cases heq
      exact h3 e fp' gs' hoa
    | ok rl fp' gs' =>
      refine ⟨by simp, by simp, ?_⟩
      intro st' heq
      cases heq
      by_cases hrl : rl = 0
      · simp [hrl, FirstRunInv]
      · simp only [if_neg hrl]
        exact h4 rl fp' gs' hoa hrl

lemma runFirst_sound (acts : List Action) :
    ∀ st, FirstRunInv st →
      runFirst st acts ≠ .error PanicKind.revealedExpect ∧
      runFirst st acts ≠ .error PanicKind.drawExpect := by
  induction acts with
  | nil =>
    intro st _
    exact ⟨by simp [runFirst], by simp [runFirst]⟩
  | cons a rest ih =>
    intro st hst
    obtain ⟨h1, h2, h3⟩ := stepFirst_sound st a hst
    simp only [runFirst]
    cases hsf : stepFirst st a with
    | error k =>
      rw [hsf] at h1 h2
      constructor
      · intro hk
        cases hk
        exact h1 rfl
      · intro hk
        cases hk
        exact h2 rfl
    | ok st' =>
      exact ih st' (h3 st' hsf)

lemma initRound_inv (shuffled : List BasicCard) (h52 : shuffled.length = 52) :
    ∀ st, initRound shuffled = some st → FirstRunInv st := by
  intro st hst
  unfold initRound GameState.new deckDrawN at hst
  rw [if_pos (by omega)] at hst
  dsimp only at hst
  rw [if_pos (by simp; omega)] at hst
  dsimp only [deckDraw] at hst
  cases hl : ((shuffled.take (shuffled.length - 13)).take
      ((shuffled.take (shuffled.length - 13)).length - 13)).getLast? with
  | none =>
    rw [List.getLast?_eq_none_iff] at hl
    have : ((shuffled.take (shuffled.length - 13)).take
        ((shuffled.take (shuffled.length - 13)).length - 13)).length = 26 := by
      simp
      omega
    rw [hl] at this
    simp at this
  | some c =>
    rw [hl] at hst
    dsimp only at hst
    cases hst
    refine ⟨rfl, by simp [FirstPhase.new], ?_⟩
    show 2 * 13 - 1 ≤ _
    simp [FirstPhase.new]
    omega

lemma length_filter_and_split (l : List BasicCard) (pred q : BasicCard → Bool) :
    (l.filter fun k => pred k && q k).length +
      (l.filter fun k => !(pred k) && q k).length = (l.filter q).length := by
  induction l with
  | nil => rfl
  | cons x rest ih =>
    by_cases hp : pred x = true <;> by_cases hq : q x = true <;>
      simp [List.filter_cons, hp, hq] <;> omega

/-! Theorems. -/

/-- Claim C10: starting from a fresh round (13 cards dealt to each hand,
one card revealed, 25 cards left in the deck, `rounds_left = 13`), no
sequence of submitted actions can fire the two `expect` panics in
`FirstPhase::on_action` (`phase.rs` lines 115 and 118): at every trick
resolution a revealed card is present and the deck still holds a card
for the loser's draw. -/
theorem claim_C10 (shuffled : List BasicCard) (h52 : shuffled.length = 52)
    (acts : List Action) :
    playRound shuffled acts ≠ some (.error PanicKind.revealedExpect) ∧
    playRound shuffled acts ≠ some (.error PanicKind.drawExpect) := by
  unfold playRound
  cases hinit : initRound shuffled with
  | none => exact ⟨fun h => by simp at h, fun h => by simp at h⟩
  | some st =>
    have hInv := initRound_inv shuffled h52 st hinit
    have hrun := runFirst_sound acts st hInv
    simp only [Option.map_some']
    constructor
    · intro hk
      exact hrun.1 (Option.some.inj hk)
    · intro hk
      exact hrun.2 (Option.some.inj hk)

/-- Witness for `claim_C10`: the canonical 52-card deck, no actions. -/
theorem claim_C10_witness :
    playRound BasicCard.all [] ≠ some (.error PanicKind.revealedExpect) ∧
    playRound BasicCard.all [] ≠ some (.error PanicKind.drawExpect) :=
  claim_C10 BasicCard.all (by decide) []

/-- Claim C5, counterexample: with trump ♥, leading ♠K beats following ♣2,
but after swapping the players' cards (♣2 leads, ♠K follows) the leader
still wins — `score_hand` does not declare the following player the
winner, so swapping the two cards does not swap the winner. -/
theorem claim_C5_counterexample :
    scoreHand Suit.Hearts ⟨Rank.King, Suit.Spades⟩ ⟨Rank.Two, Suit.Clubs⟩ = some true ∧
    ¬ (scoreHand Suit.Hearts ⟨Rank.Two, Suit.Clubs⟩ ⟨Rank.King, Suit.Spades⟩ = some false) := by
  decide

set_option maxRecDepth 100000 in
/-- Claim C5 (amended): for distinct cards `a`, `b` that share a suit or of
which at least one is trump, `score_hand` declares the leader the winner
of (`a` leads, `b` follows) iff it declares the follower the winner of
(`b` leads, `a` follows).  When neither card is trump and their suits
differ, the leading player wins both orientations, so the unrestricted
swap property of the original claim fails. -/
theorem claim_C5 (trump : Suit) (a b : BasicCard) (hne : a ≠ b)
    (hs : a.suit = b.suit ∨ a.suit = trump ∨ b.suit = trump) :
    (scoreHand trump a b = some true ↔ scoreHand trump b a = some false) := by
  revert hne hs
  revert trump a b
  decide

/-- Claim C2: an action submitted by the active player with a card from
their own hand is rejected as `NotFollowingSuit` exactly when a card has
been led, the player holds the led card's suit and the submitted card's
suit differs from the led suit — independently of the trump suit
(`phase.rs`, `FirstPhase::on_action`). -/
theorem claim_C2 (fp : FirstPhase) (gs : GameState) (a : Action)
    (hp : a.player = fp.active) (hc : a.card ∈ gs.hand a.player) :
    ((fp.onAction gs a).errOf = some ActionError.NotFollowingSuit ↔
      ∃ c, fp.played = some c ∧ hasSuit (gs.hand a.player) c.suit = true ∧
        a.card.suit ≠ c.suit) := by
  unfold FirstPhase.onAction
  rw [if_neg (by simp [hp]), if_neg (by simp [hc])]
  cases hpl : fp.played with
  | none =>
    dsimp only
    rcases removeCard_ok_of_mem _ _ hc with ⟨h', hh⟩
    rw [hh]
    simp [ActionOutcome.errOf]
  | some c =>
    dsimp only
    by_cases hg : (hasSuit (gs.hand a.player) c.suit &&
        (a.card.suit != c.suit)) = true
    · rw [if_pos hg]
      rw [Bool.and_eq_true] at hg
      simp only [ActionOutcome.errOf]
      constructor
      · intro _
        exact ⟨c, rfl, hg.1, by simpa using hg.2⟩
      · intro _
        trivial
    · rw [if_neg hg]
      constructor
      · intro hres
        exact absurd hres (resolveTrick_errOf_ne_nfs _ _ _ _)
      · rintro ⟨c', hc', hsuit, hne⟩
        cases hc'
        refine absurd ?_ hg
        rw [Bool.and_eq_true]
        exact ⟨hsuit, by simpa using hne⟩

/-- Witness for `claim_C2`: player 1 follows ♣2 with ♥3 while holding
♣5 — the engine reports `NotFollowingSuit`. -/
theorem claim_C2_witness :
    ((FirstPhase.onAction
        ⟨some ⟨Rank.Two, Suit.Clubs⟩, 1, 13, some ⟨Rank.Ace, Suit.Spades⟩⟩
        ⟨[], [], [⟨Rank.Three, Suit.Hearts⟩, ⟨Rank.Five, Suit.Clubs⟩], 0, 0,
          Suit.Hearts, some ⟨Rank.Two, Suit.Clubs⟩, 1, 26,
          some ⟨Rank.Ace, Suit.Spades⟩⟩
        ⟨1, ⟨Rank.Three, Suit.Hearts⟩⟩).errOf =
          some ActionError.NotFollowingSuit ↔
      ∃ c, (some ⟨Rank.Two, Suit.Clubs⟩ : Option BasicCard) = some c ∧
        hasSuit [⟨Rank.Three, Suit.Hearts⟩, ⟨Rank.Five, Suit.Clubs⟩] c.suit = true ∧
        Suit.Hearts ≠ c.suit) :=
  claim_C2
    ⟨some ⟨Rank.Two, Suit.Clubs⟩, 1, 13, some ⟨Rank.Ace, Suit.Spades⟩⟩
    ⟨[], [], [⟨Rank.Three, Suit.Hearts⟩, ⟨Rank.Five, Suit.Clubs⟩], 0, 0,
      Suit.Hearts, some ⟨Rank.Two, Suit.Clubs⟩, 1, 26,
      some ⟨Rank.Ace, Suit.Spades⟩⟩
    ⟨1, ⟨Rank.Three, Suit.Hearts⟩⟩ rfl (by decide)

/-- Claim C3: computing `FirstPhase::on_action` at a concrete rejected
action (player 1 must follow ♣2, holds ♣5, plays ♥3): the call returns
`Err(NotFollowingSuit)` but the returned phase carries `played = None` —
the currently-led card ♣2 was cleared by `self.played.take()` before the
follow-suit validation, so the rejected action does NOT leave the whole
game state as it was. -/
theorem claim_C3 :
    (FirstPhase.onAction
        ⟨some ⟨Rank.Two, Suit.Clubs⟩, 1, 13, some ⟨Rank.Ace, Suit.Spades⟩⟩
        ⟨[], [], [⟨Rank.Three, Suit.Hearts⟩, ⟨Rank.Five, Suit.Clubs⟩], 0, 0,
          Suit.Hearts, some ⟨Rank.Two, Suit.Clubs⟩, 1, 26,
          some ⟨Rank.Ace, Suit.Spades⟩⟩
        ⟨1, ⟨Rank.Three, Suit.Hearts⟩⟩
      = ActionOutcome.fail ActionError.NotFollowingSuit
          ⟨none, 1, 13, some ⟨Rank.Ace, Suit.Spades⟩⟩
          ⟨[], [], [⟨Rank.Three, Suit.Hearts⟩, ⟨Rank.Five, Suit.Clubs⟩], 0, 0,
            Suit.Hearts, some ⟨Rank.Two, Suit.Clubs⟩, 1, 26,
            some ⟨Rank.Ace, Suit.Spades⟩⟩)
    ∧ (⟨none, 1, 13, some ⟨Rank.Ace, Suit.Spades⟩⟩ : FirstPhase).played ≠
        (⟨some ⟨Rank.Two, Suit.Clubs⟩, 1, 13,
          some ⟨Rank.Ace, Suit.Spades⟩⟩ : FirstPhase).played := by
  decide

/-- Witness for `claim_C5` at trump ♥, a = ♠K, b = ♠2. -/
theorem claim_C5_witness :
    scoreHand Suit.Hearts ⟨Rank.King, Suit.Spades⟩ ⟨Rank.Two, Suit.Spades⟩ = some true ↔
    scoreHand Suit.Hearts ⟨Rank.Two, Suit.Spades⟩ ⟨Rank.King, Suit.Spades⟩ = some false :=
  claim_C5 Suit.Hearts ⟨Rank.King, Suit.Spades⟩ ⟨Rank.Two, Suit.Spades⟩
    (by decide) (Or.inl rfl)

/-- Claim C6: computing `update_suit_order` at trump ♥ with a hand of two
clubs: the code sorts by ASCENDING held-count (its own comment says
"highest card count"), producing ♥,♦,♠,♣, while the claimed ordering
(trump, then DESCENDING count, then ordinal) is ♥,♣,♦,♠; the two
disagree. -/
theorem claim_C6 :
    updateSuitOrder Suit.Hearts
        [⟨Rank.Two, Suit.Clubs⟩, ⟨Rank.Three, Suit.Clubs⟩]
        [Suit.Clubs, Suit.Diamonds, Suit.Hearts, Suit.Spades]
      = [Suit.Hearts, Suit.Diamonds, Suit.Spades, Suit.Clubs] ∧
    claimSuitOrder Suit.Hearts
        [⟨Rank.Two, Suit.Clubs⟩, ⟨Rank.Three, Suit.Clubs⟩]
        [Suit.Clubs, Suit.Diamonds, Suit.Hearts, Suit.Spades]
      = [Suit.Hearts, Suit.Clubs, Suit.Diamonds, Suit.Spades] ∧
    updateSuitOrder Suit.Hearts
        [⟨Rank.Two, Suit.Clubs⟩, ⟨Rank.Three, Suit.Clubs⟩]
        [Suit.Clubs, Suit.Diamonds, Suit.Hearts, Suit.Spades]
      ≠ claimSuitOrder Suit.Hearts
        [⟨Rank.Two, Suit.Clubs⟩, ⟨Rank.Three, Suit.Clubs⟩]
        [Suit.Clubs, Suit.Diamonds, Suit.Hearts, Suit.Spades] := by
  decide

/-- Claim C7, counterexample: the state reached by
`card_drawn(♣2); empty_suit(♣)` is reachable through the public
operations, yet after `empty_suit(♣)` the probability of ♣2 is 1, not 0:
`empty_suit` only voids `Prob` cards and leaves `Owns` untouched. -/
theorem claim_C7_counterexample :
    ((HandBelief.new.cardDrawn ⟨Rank.Two, Suit.Clubs⟩).emptySuit
        Suit.Clubs).p ⟨Rank.Two, Suit.Clubs⟩ ≠ 0 := by
  decide

/-- Claim C7 (amended): for every belief state, after `card_drawn(c)`,
p(c) = 1; after `card_played(c)` or `card_seen(c)`, p(c) = 0 — all three
unconditionally; and after `empty_suit(s)`, p(c) = 0 for every card c of
suit s that was not in the `Owns` state — a card the opponent is known
to own keeps p(c) = 1 through `empty_suit`. -/
theorem claim_C7 (hb : HandBelief) (c : BasicCard) (s : Suit) :
    (hb.cardDrawn c).p c = 1 ∧ (hb.cardPlayed c).p c = 0 ∧
    (hb.cardSeen c).p c = 0 ∧
    (c.suit = s → hb.probs c ≠ CardState.Owns → (hb.emptySuit s).p c = 0) := by
  refine ⟨?_, ?_, ?_, ?_⟩
  · simp [HandBelief.cardDrawn, HandBelief.p, CardState.p]
  · simp [HandBelief.cardPlayed, HandBelief.distributeUniformly,
      HandBelief.p, CardState.p]
  · simp [HandBelief.cardSeen, HandBelief.p, CardState.p]
  · intro hcs hno
    subst hcs
    cases hpc : hb.probs c with
    | Owns => exact absurd hpc hno
    | Played =>
      simp [HandBelief.emptySuit, HandBelief.transferProbabilityTo,
        HandBelief.p, CardState.p, hpc]
    | Void =>
      simp [HandBelief.emptySuit, HandBelief.transferProbabilityTo,
        HandBelief.p, CardState.p, hpc]
    | Prob pp =>
      simp [HandBelief.emptySuit, HandBelief.transferProbabilityTo,
        HandBelief.p, CardState.p, hpc]

/-- Witness for `claim_C7` on the fresh belief at card ♣2, with the
`empty_suit` side conditions discharged concretely. -/
theorem claim_C7_witness :
    (HandBelief.new.cardDrawn ⟨Rank.Two, Suit.Clubs⟩).p
        ⟨Rank.Two, Suit.Clubs⟩ = 1 ∧
    (HandBelief.new.cardPlayed ⟨Rank.Two, Suit.Clubs⟩).p
        ⟨Rank.Two, Suit.Clubs⟩ = 0 ∧
    (HandBelief.new.cardSeen ⟨Rank.Two, Suit.Clubs⟩).p
        ⟨Rank.Two, Suit.Clubs⟩ = 0 ∧
    (HandBelief.new.emptySuit Suit.Clubs).p ⟨Rank.Two, Suit.Clubs⟩ = 0 :=
  ⟨(claim_C7 HandBelief.new ⟨Rank.Two, Suit.Clubs⟩ Suit.Clubs).1,
   (claim_C7 HandBelief.new ⟨Rank.Two, Suit.Clubs⟩ Suit.Clubs).2.1,
   (claim_C7 HandBelief.new ⟨Rank.Two, Suit.Clubs⟩ Suit.Clubs).2.2.1,
   (claim_C7 HandBelief.new ⟨Rank.Two, Suit.Clubs⟩ Suit.Clubs).2.2.2
     rfl (by decide)⟩

/-- Claim C8, counterexample: in the belief that holds every card at
`Prob(1)` (the claim quantifies over every `HandBelief` state),
transferring probability to the predicate "is not ♣2" CHANGES the
probability value of the failing card ♣2 (it is set to 0, not left at
1): the claim's assertion that failing `Prob` cards keep their values is
false. -/
theorem claim_C8_counterexample :
    (HandBelief.transferProbabilityTo ⟨fun _ => CardState.Prob 1⟩
        fun k => k != ⟨Rank.Two, Suit.Clubs⟩).p ⟨Rank.Two, Suit.Clubs⟩ ≠
      (⟨fun _ => CardState.Prob 1⟩ : HandBelief).p ⟨Rank.Two, Suit.Clubs⟩ := by
  simp [HandBelief.transferProbabilityTo, HandBelief.p, CardState.p]

/-- Claim C8 (amended): `transfer_probability_to(pred)` adds the summed
probability of the `Prob` cards failing `pred`, divided by the number of
`Prob` cards satisfying `pred`, to each satisfying `Prob` card, and sets
the probability value of each failing `Prob` card to 0 while leaving its
state `Prob` (the caller must still set the state explicitly). -/
theorem claim_C8 (hb : HandBelief) (pred : BasicCard → Bool) (c : BasicCard)
    (hprob : (hb.probs c).isProb = true) :
    (pred c = true →
      (hb.transferProbabilityTo pred).probs c =
        CardState.Prob ((hb.probs c).p +
          probFailMass hb pred / probSatCount hb pred)) ∧
    (pred c = false →
      (hb.transferProbabilityTo pred).probs c = CardState.Prob 0) := by
  have hcount : hb.numCandidates - probFailCount hb pred =
      probSatCount hb pred := by
    unfold HandBelief.numCandidates probFailCount probSatCount
    have h := length_filter_and_split BasicCard.all pred
      (fun k => (hb.probs k).isProb)
    rw [← h]
    push_cast
    ring
  cases hpc : hb.probs c with
  | Played => rw [hpc] at hprob; cases hprob
  | Void => rw [hpc] at hprob; cases hprob
  | Owns => rw [hpc] at hprob; cases hprob
  | Prob pp =>
    constructor
    · intro hpred
      simp only [HandBelief.transferProbabilityTo, hpc, hpred, if_pos]
      rw [hcount]
      simp [CardState.p]
    · intro hpred
      simp [HandBelief.transferProbabilityTo, hpc, hpred]

/-- Witness for `claim_C8` on the uniform belief at card ♣3 with the
predicate "is not ♣2". -/
theorem claim_C8_witness :
    (((⟨Rank.Three, Suit.Clubs⟩ : BasicCard) !=
        (⟨Rank.Two, Suit.Clubs⟩ : BasicCard)) = true →
      ((HandBelief.new.randomCardsDrawn 13).transferProbabilityTo
          fun k => k != ⟨Rank.Two, Suit.Clubs⟩).probs
            ⟨Rank.Three, Suit.Clubs⟩ =
        CardState.Prob
          (((HandBelief.new.randomCardsDrawn 13).probs
              ⟨Rank.Three, Suit.Clubs⟩).p +
            probFailMass (HandBelief.new.randomCardsDrawn 13)
                (fun k => k != ⟨Rank.Two, Suit.Clubs⟩) /
              probSatCount (HandBelief.new.randomCardsDrawn 13)
                (fun k => k != ⟨Rank.Two, Suit.Clubs⟩))) ∧
    (((⟨Rank.Three, Suit.Clubs⟩ : BasicCard) !=
        (⟨Rank.Two, Suit.Clubs⟩ : BasicCard)) = false →
      ((HandBelief.new.randomCardsDrawn 13).transferProbabilityTo
          fun k => k != ⟨Rank.Two, Suit.Clubs⟩).probs
            ⟨Rank.Three, Suit.Clubs⟩ = CardState.Prob 0) :=
  claim_C8 (HandBelief.new.randomCardsDrawn 13)
    (fun k => k != ⟨Rank.Two, Suit.Clubs⟩) ⟨Rank.Three, Suit.Clubs⟩
    (by decide)

/-- Claim C9: `evaluate_with_gradient` fully overwrites the
caller-provided gradient buffer — it is zero-filled up front and every
layer block is then rewritten — so two calls on the same network and
input with different initial buffer contents (of the required length
`num_parameters`) return the same output vector and identical final
buffer contents. -/
theorem claim_C9 (nn : NeuralNet) (af : ActivationFunction → ℚ → ℚ)
    (agf : ActivationFunction → ℚ → ℚ → ℚ) (input : List ℚ)
    (g1 g2 : List ℚ) (h1 : g1.length = nn.numParameters)
    (h2 : g2.length = nn.numParameters) :
    nn.evaluateWithGradient af agf input g1 =
      nn.evaluateWithGradient af agf input g2 := by
  unfold NeuralNet.evaluateWithGradient
  rw [h1, h2]

/-- Witness for `claim_C9`: a 1→1 linear layer evaluated with two
different initial buffers of the correct length 2. -/
theorem claim_C9_witness :
    NeuralNet.evaluateWithGradient ⟨[⟨[[1]], [0], .Linear⟩]⟩
        (fun _ x => x) (fun _ _ _ => 1) [2] [5, 7] =
      NeuralNet.evaluateWithGradient ⟨[⟨[[1]], [0], .Linear⟩]⟩
        (fun _ x => x) (fun _ _ _ => 1) [2] [9, 4] :=
  claim_C9 ⟨[⟨[[1]], [0], .Linear⟩]⟩ (fun _ x => x) (fun _ _ _ => 1)
    [2] [5, 7] [9, 4] (by decide) (by decide)

/-- Claim C4, counterexample: with `dual_train = false` and active
player 1 (λ = 4/5, γ = 1, trace [0], last_q 0, gradient [1],
Q-prediction 5), the step leaves player 1's trace and last_q unchanged
at ([0], 0) — not the ([λ·γ·0 + 1], 5) = ([1], 5) the claim asserts. -/
theorem claim_C4_counterexample :
    (sarsaStepUpdate (fun (m : Unit) _ _ => m) (4/5) 1 false 1 () 5 [1]
        (⟨[0], 0⟩, ⟨[0], 0⟩)).2.2 = (⟨[0], 0⟩ : SarsaPlayerT) ∧
    (⟨[0], 0⟩ : SarsaPlayerT) ≠ ⟨[(4/5 : ℚ) * 1 * 0 + 1], 5⟩ := by
  refine ⟨rfl, ?_⟩
  intro h
  rw [SarsaPlayerT.mk.injEq] at h
  have h2 := h.2
  norm_num at h2

/-- Claim C4 (amended): when `dual_train` is `false` and the active
player is player 1, the whole update block of `train_on_episode` is
skipped: the model weights, player 1's eligibility trace AND player 1's
`last_q` are all left unchanged — the trace is NOT decayed or
accumulated. -/
theorem claim_C4 {M : Type} (updateWeights : M → ℚ → List ℚ → M)
    (lambda gamma : ℚ) (model : M) (qPredict : ℚ) (grad : List ℚ)
    (players : SarsaPlayerT × SarsaPlayerT) :
    sarsaStepUpdate updateWeights lambda gamma false 1 model qPredict grad
      players = (model, players) := rfl

/-- Claim C1: computing the event-delivery skeleton of
`train_on_episode` on an engine whose `start_round` returns the event
lists ([0], [1]) and whose `play_action` returns ([2], [3]): after one
played action the observers have been fed ([0,0], [1,1]) — the
`start_round` lists re-delivered — and the action events 2 and 3 never
reach any observer, contradicting the claim that each `play_action`'s
per-player lists are routed to the observers. -/
theorem claim_C1 :
    trainDelivery
        (⟨(([0], [1]), 0),
          fun s => decide (1 ≤ s),
          fun s => (([2], [3]), s + 1)⟩ : TrainEngine Nat Nat) 2
      = (([0, 0], [1, 1]), true) ∧
    (2 : Nat) ∉ [0, 0] ∧ (3 : Nat) ∉ [1, 1] := by
  decide

end GW
